import Mathlib

/-!
Verification of the time-clock ("ponto eletrônico") core:
shift reconstruction (`groupEventsByShifts`), work-hours calculation
(`calculateWorkDetails`), period aggregation (`periodSummary` accumulators)
and the manual-event ingestion handler (`handleAddManualEvent`), embedded
from `src/components/AdminDashboard.tsx` and `src/App.tsx`.

Timestamps are modelled as integer milliseconds since the epoch (JavaScript
`Date.getTime()` on these values is exact integer arithmetic).  Currency
amounts are modelled in `ℚ`, with the literal decimal rates of the source.
-/

namespace Ponto

/-- `ClockType` from `src/types.ts`: the four punch types. -/
inductive ClockType where
  | Entrada
  | InicioIntervalo
  | FimIntervalo
  | Saida
deriving DecidableEq, Repr

/-- `StoredClockEvent` from `src/types.ts`: one stored punch, with the
timestamp as integer milliseconds. -/
structure StoredClockEvent where
  id : Nat
  employeeId : Nat
  employeeName : String
  type : ClockType
  timestamp : Int
deriving DecidableEq, Repr

/-- The comparator `(a, b) => new Date(a.timestamp).getTime() - new Date(b.timestamp).getTime()`
used by every sort in the dashboard: order by timestamp. -/
def tsLE (a b : StoredClockEvent) : Prop := a.timestamp ≤ b.timestamp

instance : DecidableRel tsLE := fun a b => inferInstanceAs (Decidable (a.timestamp ≤ b.timestamp))

instance : IsTotal StoredClockEvent tsLE := ⟨fun a b => Int.le_total a.timestamp b.timestamp⟩

instance : IsTrans StoredClockEvent tsLE := ⟨fun _ _ _ h h' => le_trans h h'⟩

/-- `[...events].sort((a, b) => ta - tb)`: a stable sort by timestamp
(JavaScript `Array.prototype.sort` is stable; insertion sort is the
stable sort by the same key). -/
def sortByTimestamp (l : List StoredClockEvent) : List StoredClockEvent :=
  List.insertionSort tsLE l

/-- `NORMAL_WORK_MILLISECONDS = 8 * 60 * 60 * 1000` (AdminDashboard.tsx). -/
def NORMAL_WORK_MILLISECONDS : Int := 8 * 60 * 60 * 1000

/-- `NORMAL_HOUR_RATE = 8.15` (AdminDashboard.tsx). -/
def NORMAL_HOUR_RATE : ℚ := 8.15

/-- `EXTRA_HOUR_RATE = 16.30` (AdminDashboard.tsx). -/
def EXTRA_HOUR_RATE : ℚ := 16.30

/-- Status component of `WorkDetails` (AdminDashboard.tsx). -/
inductive WorkStatus where
  | complete
  | incomplete
  | error
  | no_entry
deriving DecidableEq, Repr

/-- The nested `payment` record of `WorkDetails`. -/
structure Payment where
  normal : ℚ
  extra : ℚ
  total : ℚ
deriving DecidableEq, Repr

/-- `WorkDetails` (AdminDashboard.tsx): durations in integer milliseconds,
payments in currency units. -/
structure WorkDetails where
  total : Int
  normal : Int
  extra : Int
  payment : Payment
  status : WorkStatus
deriving DecidableEq, Repr

/-- State of the sequential scan in `calculateWorkDetails`:
`totalMillis`, `lastTime` (nullable) and `isWorking`. -/
structure ScanState where
  totalMillis : Int
  lastTime : Option Int
  isWorking : Bool
deriving DecidableEq, Repr

/-- One iteration of the `for (const event of sortedEvents)` loop in
`calculateWorkDetails`.  The guard `if (isWorking && lastTime)` is the
JavaScript truthiness test: it also fails when `lastTime` is the number
`0` (the epoch instant), which the embedding reproduces. -/
def scanStep (s : ScanState) (e : StoredClockEvent) : ScanState :=
  let currentTime := e.timestamp
  let total :=
    match s.lastTime with
    | some t => if s.isWorking = true ∧ t ≠ 0 then s.totalMillis + (currentTime - t) else s.totalMillis
    | none => s.totalMillis
  let working :=
    match e.type with
    | ClockType.Entrada => true
    | ClockType.FimIntervalo => true
    | ClockType.Saida => false
    | ClockType.InicioIntervalo => false
  { totalMillis := total, lastTime := some currentTime, isWorking := working }

/-- The whole scan loop of `calculateWorkDetails`, from the initial state
`totalMillis = 0`, `lastTime = null`, `isWorking = false`. -/
def scanEvents (evs : List StoredClockEvent) : ScanState :=
  evs.foldl scanStep { totalMillis := 0, lastTime := none, isWorking := false }

/-- The all-zero `WorkDetails` returned on the non-`complete` branches. -/
def zeroDetails (st : WorkStatus) : WorkDetails :=
  { total := 0, normal := 0, extra := 0
    payment := { normal := 0, extra := 0, total := 0 }, status := st }

/-- `calculateWorkDetails` (AdminDashboard.tsx lines 127–184): sort the
shift's events by timestamp, scan accumulating worked milliseconds, then
classify (`no_entry` / `incomplete` / `error` / `complete`) and, when
complete, split against the 8-hour threshold and convert to currency. -/
def calculateWorkDetails (dailyEvents : List StoredClockEvent) : WorkDetails :=
  let sortedEvents := sortByTimestamp dailyEvents
  let st := scanEvents sortedEvents
  let hasEntry := sortedEvents.any fun e => decide (e.type = ClockType.Entrada)
  if hasEntry = false then zeroDetails WorkStatus.no_entry
  else
    let hasExit := sortedEvents.any fun e => decide (e.type = ClockType.Saida)
    if st.isWorking = true ∨ hasExit = false then zeroDetails WorkStatus.incomplete
    else if st.totalMillis < 0 then zeroDetails WorkStatus.error
    else
      let normal := min st.totalMillis NORMAL_WORK_MILLISECONDS
      let extra := max 0 (st.totalMillis - NORMAL_WORK_MILLISECONDS)
      let normalHours : ℚ := (normal : ℚ) / (1000 * 60 * 60)
      let extraHours : ℚ := (extra : ℚ) / (1000 * 60 * 60)
      let normalPayment := normalHours * NORMAL_HOUR_RATE
      let extraPayment := extraHours * EXTRA_HOUR_RATE
      { total := st.totalMillis, normal := normal, extra := extra
        payment := { normal := normalPayment, extra := extraPayment
                     total := normalPayment + extraPayment }
        status := WorkStatus.complete }

/-- The `for (const event of sorted)` loop of `groupEventsByShifts`
(AdminDashboard.tsx lines 89–110), with the `currentShift` buffer and the
`shiftStarted` flag as explicit arguments; the nil case is the trailing
`if (currentShift.length > 0) shifts.push(currentShift)`. -/
def groupShiftsGo : List StoredClockEvent → List StoredClockEvent → Bool →
    List (List StoredClockEvent)
  | [], currentShift, _ =>
      if currentShift = [] then [] else [currentShift]
  | e :: rest, currentShift, shiftStarted =>
      if e.type = ClockType.Entrada ∧ shiftStarted = false then
        groupShiftsGo rest [e] true
      else if shiftStarted = true then
        let cs := currentShift ++ [e]
        if e.type = ClockType.Saida then cs :: groupShiftsGo rest [] false
        else groupShiftsGo rest cs true
      else
        groupShiftsGo rest currentShift shiftStarted

/-- `groupEventsByShifts` (AdminDashboard.tsx lines 79–113): sort by
timestamp, then scan grouping events into shifts. -/
def groupEventsByShifts (events : List StoredClockEvent) : List (List StoredClockEvent) :=
  groupShiftsGo (sortByTimestamp events) [] false

/-- The accumulators (`totalNormal`, `totalExtra`, `totalPayment`) of the
`periodSummary` memo (AdminDashboard.tsx lines 437–480). -/
structure SummaryTotals where
  totalNormal : Int
  totalExtra : Int
  totalPayment : ℚ
deriving DecidableEq, Repr

/-- The inner `shifts.forEach` body of `periodSummary`: accumulate the
normal ms, extra ms and payment of a shift only when its status is
`complete`. -/
def addShiftToSummary (acc : SummaryTotals) (shiftEvents : List StoredClockEvent) :
    SummaryTotals :=
  let details := calculateWorkDetails shiftEvents
  if details.status = WorkStatus.complete then
    { totalNormal := acc.totalNormal + details.normal
      totalExtra := acc.totalExtra + details.extra
      totalPayment := acc.totalPayment + details.payment.total }
  else acc

/-- Grouping of the filtered events by `employeeId` (the `employeeGroups`
record built in `periodSummary`): one group per distinct employee id, in
first-encounter order, each group keeping the events' relative order. -/
def employeeGroups (events : List StoredClockEvent) : List (List StoredClockEvent) :=
  ((events.map fun e => e.employeeId).dedup).map fun i =>
    events.filter fun e => decide (e.employeeId = i)

/-- The numeric part of `periodSummary`: group the filtered events by
employee, group each employee's events into shifts, and fold every
`complete` shift's normal/extra/payment into the running totals. -/
def periodSummaryTotals (filteredEvents : List StoredClockEvent) : SummaryTotals :=
  (employeeGroups filteredEvents).foldl
    (fun acc empEvents => (groupEventsByShifts empEvents).foldl addShiftToSummary acc)
    { totalNormal := 0, totalExtra := 0, totalPayment := 0 }

/-- The event payload submitted to `onAddManualEvent` (`App.tsx`):
employee id, punch type and timestamp. -/
structure EventDetails where
  employeeId : Nat
  type : ClockType
  timestamp : Int
deriving DecidableEq, Repr

/-- The duplicate test of `handleAddManualEvent` (`App.tsx`): some stored
event has the same employee id, the same type and the same timestamp as
the submitted details. -/
def isDuplicateEvent (events : List StoredClockEvent) (details : EventDetails) : Bool :=
  events.any fun event =>
    decide (event.employeeId = details.employeeId) &&
    decide (event.type = details.type) &&
    decide (event.timestamp = details.timestamp)

/-- The state-updating closure of `handleAddManualEvent` (`App.tsx` lines
296–318), after the employee lookup succeeded (`employeeName` is the found
employee's name, `newId` the freshly generated `Date.now()` id): reject a
duplicate leaving the store unchanged, otherwise add the new event and
re-sort the store by timestamp.  Returns the success flag and the
resulting event store. -/
def handleAddManualEvent (events : List StoredClockEvent) (details : EventDetails)
    (employeeName : String) (newId : Nat) : Bool × List StoredClockEvent :=
  if isDuplicateEvent events details = true then (false, events)
  else
    let newEvent : StoredClockEvent :=
      { id := newId, employeeId := details.employeeId, employeeName := employeeName
        type := details.type, timestamp := details.timestamp }
    (true, sortByTimestamp (events ++ [newEvent]))

/-- Shorthand for building concrete events in examples and witnesses. -/
def mkEv (id employeeId : Nat) (ty : ClockType) (ts : Int) : StoredClockEvent :=
  { id := id, employeeId := employeeId, employeeName := "F", type := ty, timestamp := ts }

/-! ### Helper lemmas -/

lemma sortByTimestamp_perm (l : List StoredClockEvent) : List.Perm (sortByTimestamp l) l :=
  List.perm_insertionSort tsLE l

lemma mem_sortByTimestamp {l : List StoredClockEvent} {e : StoredClockEvent} :
    e ∈ sortByTimestamp l ↔ e ∈ l :=
  (sortByTimestamp_perm l).mem_iff

lemma sortByTimestamp_sorted (l : List StoredClockEvent) :
    (sortByTimestamp l).Sorted tsLE :=
  List.sorted_insertionSort tsLE l

/-- When the events contain no Entry, the `hasEntry` test of
`calculateWorkDetails` is false. -/
lemma hasEntry_false {evs : List StoredClockEvent}
    (h : ∀ e ∈ evs, e.type ≠ ClockType.Entrada) :
    ((sortByTimestamp evs).any fun e => decide (e.type = ClockType.Entrada)) = false := by
  simp only [List.any_eq_false, decide_eq_true_eq]
  intro e he
  exact h e (mem_sortByTimestamp.1 he)

/-- When the events contain an Entry, the `hasEntry` test is true. -/
lemma hasEntry_true {evs : List StoredClockEvent}
    (h : ∃ e ∈ evs, e.type = ClockType.Entrada) :
    ((sortByTimestamp evs).any fun e => decide (e.type = ClockType.Entrada)) = true := by
  obtain ⟨e, he, ht⟩ := h
  simp only [List.any_eq_true, decide_eq_true_eq]
  exact ⟨e, mem_sortByTimestamp.2 he, ht⟩

/-- When the events contain no Exit, the `hasExit` test is false. -/
lemma hasExit_false {evs : List StoredClockEvent}
    (h : ∀ e ∈ evs, e.type ≠ ClockType.Saida) :
    ((sortByTimestamp evs).any fun e => decide (e.type = ClockType.Saida)) = false := by
  simp only [List.any_eq_false, decide_eq_true_eq]
  intro e he
  exact h e (mem_sortByTimestamp.1 he)

/-- When the events contain an Exit, the `hasExit` test is true. -/
lemma hasExit_true {evs : List StoredClockEvent}
    (h : ∃ e ∈ evs, e.type = ClockType.Saida) :
    ((sortByTimestamp evs).any fun e => decide (e.type = ClockType.Saida)) = true := by
  obtain ⟨e, he, ht⟩ := h
  simp only [List.any_eq_true, decide_eq_true_eq]
  exact ⟨e, mem_sortByTimestamp.2 he, ht⟩

/-- The example shift of the spec: `[Entry@08:00, BreakStart@12:00,
BreakEnd@13:00, Exit@19:00]` (milliseconds from midnight). -/
def exampleShift : List StoredClockEvent :=
  [mkEv 1 1 ClockType.Entrada 28800000,
   mkEv 2 1 ClockType.InicioIntervalo 43200000,
   mkEv 3 1 ClockType.FimIntervalo 46800000,
   mkEv 4 1 ClockType.Saida 68400000]

/-- **C3.** For every shift event group containing no Entry event,
`calculateWorkDetails` returns status `no_entry` with total, normal, extra
and all payment fields equal to zero, regardless of any
BreakStart/BreakEnd/Exit events in the group. -/
theorem calculateWorkDetails_no_entry (evs : List StoredClockEvent)
    (h : ∀ e ∈ evs, e.type ≠ ClockType.Entrada) :
    (calculateWorkDetails evs).status = WorkStatus.no_entry ∧
    (calculateWorkDetails evs).total = 0 ∧
    (calculateWorkDetails evs).normal = 0 ∧
    (calculateWorkDetails evs).extra = 0 ∧
    (calculateWorkDetails evs).payment = ⟨0, 0, 0⟩ := by
  have he := hasEntry_false h
  simp [calculateWorkDetails, he, zeroDetails]

/-- Witness for C3: a group with a BreakStart and an Exit but no Entry. -/
theorem calculateWorkDetails_no_entry_witness :
    (∀ e ∈ [mkEv 1 1 ClockType.InicioIntervalo 1000, mkEv 2 1 ClockType.Saida 2000],
        e.type ≠ ClockType.Entrada) ∧
    ((calculateWorkDetails
        [mkEv 1 1 ClockType.InicioIntervalo 1000, mkEv 2 1 ClockType.Saida 2000]).status =
          WorkStatus.no_entry ∧
     (calculateWorkDetails
        [mkEv 1 1 ClockType.InicioIntervalo 1000, mkEv 2 1 ClockType.Saida 2000]).total = 0 ∧
     (calculateWorkDetails
        [mkEv 1 1 ClockType.InicioIntervalo 1000, mkEv 2 1 ClockType.Saida 2000]).normal = 0 ∧
     (calculateWorkDetails
        [mkEv 1 1 ClockType.InicioIntervalo 1000, mkEv 2 1 ClockType.Saida 2000]).extra = 0 ∧
     (calculateWorkDetails
        [mkEv 1 1 ClockType.InicioIntervalo 1000, mkEv 2 1 ClockType.Saida 2000]).payment =
          ⟨0, 0, 0⟩) :=
  ⟨by decide,
   calculateWorkDetails_no_entry
     [mkEv 1 1 ClockType.InicioIntervalo 1000, mkEv 2 1 ClockType.Saida 2000] (by decide)⟩

/-- **C4.** For every shift event group that contains an Entry event but
either contains no Exit event or ends the scan with the working flag still
true, `calculateWorkDetails` returns status `incomplete` with total,
normal, extra and all payment fields equal to zero. -/
theorem calculateWorkDetails_incomplete (evs : List StoredClockEvent)
    (hentry : ∃ e ∈ evs, e.type = ClockType.Entrada)
    (h : (scanEvents (sortByTimestamp evs)).isWorking = true ∨
         ∀ e ∈ evs, e.type ≠ ClockType.Saida) :
    (calculateWorkDetails evs).status = WorkStatus.incomplete ∧
    (calculateWorkDetails evs).total = 0 ∧
    (calculateWorkDetails evs).normal = 0 ∧
    (calculateWorkDetails evs).extra = 0 ∧
    (calculateWorkDetails evs).payment = ⟨0, 0, 0⟩ := by
  have he := hasEntry_true hentry
  rcases h with hw | hx
  · simp [calculateWorkDetails, he, hw, zeroDetails]
  · have hx' := hasExit_false hx
    simp [calculateWorkDetails, he, hx', zeroDetails]

/-- Witness for C4: an open shift (Entry with no Exit). -/
theorem calculateWorkDetails_incomplete_witness :
    (∃ e ∈ [mkEv 1 1 ClockType.Entrada 1000], e.type = ClockType.Entrada) ∧
    ((scanEvents (sortByTimestamp [mkEv 1 1 ClockType.Entrada 1000])).isWorking = true ∨
      ∀ e ∈ [mkEv 1 1 ClockType.Entrada 1000], e.type ≠ ClockType.Saida) ∧
    ((calculateWorkDetails [mkEv 1 1 ClockType.Entrada 1000]).status =
        WorkStatus.incomplete ∧
     (calculateWorkDetails [mkEv 1 1 ClockType.Entrada 1000]).total = 0 ∧
     (calculateWorkDetails [mkEv 1 1 ClockType.Entrada 1000]).normal = 0 ∧
     (calculateWorkDetails [mkEv 1 1 ClockType.Entrada 1000]).extra = 0 ∧
     (calculateWorkDetails [mkEv 1 1 ClockType.Entrada 1000]).payment = ⟨0, 0, 0⟩) :=
  ⟨by decide, by decide,
   calculateWorkDetails_incomplete [mkEv 1 1 ClockType.Entrada 1000]
     (by decide) (by decide)⟩

/-- **C2.** For every shift event group that contains an Entry and an Exit,
does not end in working state, and whose scanned elapsed total is
non-negative, `calculateWorkDetails` returns status `complete` with
`normal = min(totalMillis, 8h)`, `extra = max(0, totalMillis - 8h)` (hence
`normal + extra = totalMillis`), and payment computed as normal hours times
8.15 plus extra hours times 16.30. -/
theorem calculateWorkDetails_complete (evs : List StoredClockEvent)
    (hentry : ∃ e ∈ evs, e.type = ClockType.Entrada)
    (hexit : ∃ e ∈ evs, e.type = ClockType.Saida)
    (hw : (scanEvents (sortByTimestamp evs)).isWorking = false)
    (hnn : 0 ≤ (scanEvents (sortByTimestamp evs)).totalMillis) :
    (calculateWorkDetails evs).status = WorkStatus.complete ∧
    (calculateWorkDetails evs).total = (scanEvents (sortByTimestamp evs)).totalMillis ∧
    (calculateWorkDetails evs).normal =
      min (calculateWorkDetails evs).total NORMAL_WORK_MILLISECONDS ∧
    (calculateWorkDetails evs).extra =
      max 0 ((calculateWorkDetails evs).total - NORMAL_WORK_MILLISECONDS) ∧
    (calculateWorkDetails evs).normal + (calculateWorkDetails evs).extra =
      (calculateWorkDetails evs).total ∧
    (calculateWorkDetails evs).payment.total =
      ((calculateWorkDetails evs).normal : ℚ) / (1000 * 60 * 60) * NORMAL_HOUR_RATE +
      ((calculateWorkDetails evs).extra : ℚ) / (1000 * 60 * 60) * EXTRA_HOUR_RATE := by
  have he := hasEntry_true hentry
  have hx := hasExit_true hexit
  have hneg : ¬ (scanEvents (sortByTimestamp evs)).totalMillis < 0 := not_lt.2 hnn
  refine ⟨?_, ?_, ?_, ?_, ?_, ?_⟩ <;>
    simp [calculateWorkDetails, he, hx, hw, hneg] <;>
    · unfold NORMAL_WORK_MILLISECONDS
      omega

/-- Witness for C2: the spec's concrete shift
`[Entry@08:00, BreakStart@12:00, BreakEnd@13:00, Exit@19:00]`:
total = 10h, normal = 8h, extra = 2h, payment = 97.80. -/
theorem calculateWorkDetails_complete_witness :
    (∃ e ∈ exampleShift, e.type = ClockType.Entrada) ∧
    (∃ e ∈ exampleShift, e.type = ClockType.Saida) ∧
    (scanEvents (sortByTimestamp exampleShift)).isWorking = false ∧
    0 ≤ (scanEvents (sortByTimestamp exampleShift)).totalMillis ∧
    ((calculateWorkDetails exampleShift).status = WorkStatus.complete ∧
     (calculateWorkDetails exampleShift).total =
       (scanEvents (sortByTimestamp exampleShift)).totalMillis ∧
     (calculateWorkDetails exampleShift).normal =
       min (calculateWorkDetails exampleShift).total NORMAL_WORK_MILLISECONDS ∧
     (calculateWorkDetails exampleShift).extra =
       max 0 ((calculateWorkDetails exampleShift).total - NORMAL_WORK_MILLISECONDS) ∧
     (calculateWorkDetails exampleShift).normal + (calculateWorkDetails exampleShift).extra =
       (calculateWorkDetails exampleShift).total ∧
     (calculateWorkDetails exampleShift).payment.total =
       ((calculateWorkDetails exampleShift).normal : ℚ) / (1000 * 60 * 60) * NORMAL_HOUR_RATE +
       ((calculateWorkDetails exampleShift).extra : ℚ) / (1000 * 60 * 60) * EXTRA_HOUR_RATE) ∧
    (calculateWorkDetails exampleShift).total = 36000000 ∧
    (calculateWorkDetails exampleShift).normal = 28800000 ∧
    (calculateWorkDetails exampleShift).extra = 7200000 ∧
    (calculateWorkDetails exampleShift).payment.total = 97.8 := by
  refine ⟨by decide, by decide, by decide, by decide,
    calculateWorkDetails_complete exampleShift (by decide) (by decide) (by decide) (by decide),
    by decide, by decide, by decide, ?_⟩
  have h := (calculateWorkDetails_complete exampleShift
    (by decide) (by decide) (by decide) (by decide)).2.2.2.2.2
  rw [h, show (calculateWorkDetails exampleShift).normal = 28800000 by decide,
      show (calculateWorkDetails exampleShift).extra = 7200000 by decide]
  norm_num [NORMAL_HOUR_RATE, EXTRA_HOUR_RATE]

/-- **C6.** If after the sequential scan the current-shift buffer is
non-empty, `groupEventsByShifts` emits that buffer as the last shift; in
particular on `[Entry@D1-08:00, Exit@D1-17:00, Entry@D2-09:00]` it yields
exactly two shifts, the second containing only the open D2 Entry. -/
theorem groupEventsByShifts_trailing_shift :
    (∀ (buffer : List StoredClockEvent) (st : Bool), buffer ≠ [] →
        groupShiftsGo [] buffer st = [buffer]) ∧
    groupEventsByShifts
        [mkEv 1 1 ClockType.Entrada 28800000, mkEv 2 1 ClockType.Saida 61200000,
         mkEv 3 1 ClockType.Entrada 118800000] =
      [[mkEv 1 1 ClockType.Entrada 28800000, mkEv 2 1 ClockType.Saida 61200000],
       [mkEv 3 1 ClockType.Entrada 118800000]] := by
  constructor
  · intro buffer st h
    simp [groupShiftsGo, h]
  · decide

/-- Witness for C6: a singleton buffer is emitted at end of input. -/
theorem groupEventsByShifts_trailing_shift_witness :
    ([mkEv 1 1 ClockType.Entrada 1000] ≠ ([] : List StoredClockEvent)) ∧
    groupShiftsGo [] [mkEv 1 1 ClockType.Entrada 1000] true =
      [[mkEv 1 1 ClockType.Entrada 1000]] :=
  ⟨by decide,
   groupEventsByShifts_trailing_shift.1 [mkEv 1 1 ClockType.Entrada 1000] true (by decide)⟩

/-- **C7.** An Entry event scanned while a shift is already open does not
start a new shift: it is appended to the currently open buffer. -/
theorem groupShiftsGo_entry_while_open (e : StoredClockEvent)
    (rest buffer : List StoredClockEvent) (h : e.type = ClockType.Entrada) :
    groupShiftsGo (e :: rest) buffer true = groupShiftsGo rest (buffer ++ [e]) true := by
  simp [groupShiftsGo, h]

/-- Witness for C7: two Entry events with no intervening Exit end up in the
same output shift. -/
theorem groupShiftsGo_entry_while_open_witness :
    (mkEv 2 1 ClockType.Entrada 2000).type = ClockType.Entrada ∧
    groupShiftsGo [mkEv 2 1 ClockType.Entrada 2000] [mkEv 1 1 ClockType.Entrada 1000] true =
      groupShiftsGo [] [mkEv 1 1 ClockType.Entrada 1000, mkEv 2 1 ClockType.Entrada 2000] true ∧
    groupEventsByShifts [mkEv 1 1 ClockType.Entrada 1000, mkEv 2 1 ClockType.Entrada 2000] =
      [[mkEv 1 1 ClockType.Entrada 1000, mkEv 2 1 ClockType.Entrada 2000]] :=
  ⟨by decide,
   groupShiftsGo_entry_while_open (mkEv 2 1 ClockType.Entrada 2000) []
     [mkEv 1 1 ClockType.Entrada 1000] (by decide),
   by decide⟩

/-- The concatenation of the shifts produced by the grouping scan is a
sublist of the buffer followed by the remaining input: no event is ever
emitted twice, though events scanned while no shift is open that are not
Entry events are skipped. -/
lemma groupShiftsGo_join_sublist :
    ∀ (rest buffer : List StoredClockEvent) (st : Bool),
      (groupShiftsGo rest buffer st).flatten.Sublist (buffer ++ rest)
  | [], buffer, st => by
      by_cases h : buffer = []
      · simp [groupShiftsGo, h]
      · simp [groupShiftsGo, h]
  | e :: rest, buffer, st => by
      by_cases h1 : e.type = ClockType.Entrada ∧ st = false
      · have ih := groupShiftsGo_join_sublist rest [e] true
        rw [groupShiftsGo, if_pos h1]
        refine ih.trans ?_
        simp only [List.singleton_append]
        exact List.sublist_append_right buffer (e :: rest)
      · by_cases h2 : st = true
        · by_cases h3 : e.type = ClockType.Saida
          · have ih := groupShiftsGo_join_sublist rest [] false
            rw [groupShiftsGo, if_neg h1, if_pos h2]
            simp only [if_pos h3, List.flatten_cons]
            have ih' : (groupShiftsGo rest [] false).flatten.Sublist rest := by
              simpa using ih
            simpa using ih'.append_left (buffer ++ [e])
          · have ih := groupShiftsGo_join_sublist rest (buffer ++ [e]) true
            rw [groupShiftsGo, if_neg h1, if_pos h2]
            simp only [if_neg h3]
            simpa using ih
        · have ih := groupShiftsGo_join_sublist rest buffer st
          rw [groupShiftsGo, if_neg h1, if_neg h2]
          refine ih.trans ?_
          exact List.Sublist.append_left (List.sublist_cons_self e rest) buffer

/-- **C1 (amended).** The multiset union of the output shifts of
`groupEventsByShifts` is a sub-multiset of the input events: every emitted
event comes from the input and no input event appears in more than one
output shift (events scanned while no shift is open that are not Entry
events, such as an orphaned Exit, are dropped). -/
theorem groupEventsByShifts_join_subperm (events : List StoredClockEvent) :
    (groupEventsByShifts events).flatten.Subperm events :=
  ((groupShiftsGo_join_sublist (sortByTimestamp events) [] false).subperm).trans
    (sortByTimestamp_perm events).subperm

/-- **C1 counterexample.** On the single-event input consisting of an
orphaned Exit, `groupEventsByShifts` returns no shift at all, so the
multiset union of the output shifts is not the input event set: the event
is dropped. -/
theorem groupEventsByShifts_drops_counterexample :
    groupEventsByShifts [mkEv 1 1 ClockType.Saida 1000] = [] ∧
    ¬ (groupEventsByShifts [mkEv 1 1 ClockType.Saida 1000]).flatten.Perm
        [mkEv 1 1 ClockType.Saida 1000] := by
  refine ⟨by decide, fun hp => ?_⟩
  have hlen := hp.length_eq
  rw [show groupEventsByShifts [mkEv 1 1 ClockType.Saida 1000] = [] from by decide] at hlen
  simp at hlen

/-- **C8.** Event creation rejects exact duplicates: when some stored event
matches the submitted (employeeId, type, timestamp) triple, the handler
returns false and leaves the store unchanged; otherwise it returns true
and the new store is the old store plus the new event (re-sorted by
timestamp, hence stated as a permutation of the append). -/
theorem handleAddManualEvent_spec (events : List StoredClockEvent)
    (details : EventDetails) (employeeName : String) (newId : Nat) :
    (isDuplicateEvent events details = true →
      handleAddManualEvent events details employeeName newId = (false, events)) ∧
    (isDuplicateEvent events details = false →
      (handleAddManualEvent events details employeeName newId).1 = true ∧
      (handleAddManualEvent events details employeeName newId).2.Perm
        (events ++ [{ id := newId, employeeId := details.employeeId
                      employeeName := employeeName, type := details.type
                      timestamp := details.timestamp }])) := by
  constructor
  · intro h
    simp [handleAddManualEvent, h]
  · intro h
    refine ⟨by simp [handleAddManualEvent, h], ?_⟩
    simp only [handleAddManualEvent, h]
    simpa using sortByTimestamp_perm
      (events ++ [{ id := newId, employeeId := details.employeeId
                    employeeName := employeeName, type := details.type
                    timestamp := details.timestamp }])

/-- Witness for C8: a duplicate submission is rejected with the store
unchanged; a non-duplicate submission succeeds and adds the event. -/
theorem handleAddManualEvent_spec_witness :
    isDuplicateEvent [mkEv 1 1 ClockType.Entrada 1000] ⟨1, ClockType.Entrada, 1000⟩ = true ∧
    handleAddManualEvent [mkEv 1 1 ClockType.Entrada 1000] ⟨1, ClockType.Entrada, 1000⟩ "F" 5 =
      (false, [mkEv 1 1 ClockType.Entrada 1000]) ∧
    isDuplicateEvent [mkEv 1 1 ClockType.Entrada 1000] ⟨1, ClockType.Saida, 2000⟩ = false ∧
    ((handleAddManualEvent [mkEv 1 1 ClockType.Entrada 1000]
        ⟨1, ClockType.Saida, 2000⟩ "F" 5).1 = true ∧
     (handleAddManualEvent [mkEv 1 1 ClockType.Entrada 1000]
        ⟨1, ClockType.Saida, 2000⟩ "F" 5).2.Perm
       ([mkEv 1 1 ClockType.Entrada 1000] ++ [⟨5, 1, "F", ClockType.Saida, 2000⟩])) :=
  ⟨by decide,
   (handleAddManualEvent_spec [mkEv 1 1 ClockType.Entrada 1000]
      ⟨1, ClockType.Entrada, 1000⟩ "F" 5).1 (by decide),
   by decide,
   (handleAddManualEvent_spec [mkEv 1 1 ClockType.Entrada 1000]
      ⟨1, ClockType.Saida, 2000⟩ "F" 5).2 (by decide)⟩

/-- Over a timestamp-sorted event list every accrued difference
`currentTime - lastTime` is non-negative, so the scan accumulator never
goes below its starting value's sign: from a non-negative `totalMillis`
and a `lastTime` bounding the upcoming timestamps from below, the final
`totalMillis` is non-negative. -/
lemma scan_totalMillis_nonneg :
    ∀ (l : List StoredClockEvent) (s : ScanState),
      0 ≤ s.totalMillis →
      (∀ t, s.lastTime = some t → ∀ e ∈ l, t ≤ e.timestamp) →
      l.Sorted tsLE →
      0 ≤ (l.foldl scanStep s).totalMillis
  | [], _, hs, _, _ => hs
  | e :: l, s, hs, hlast, hsort => by
      rw [List.foldl_cons]
      have hsort' := List.sorted_cons.1 hsort
      refine scan_totalMillis_nonneg l (scanStep s e) ?_ ?_ hsort'.2
      · simp only [scanStep]
        cases hl : s.lastTime with
        | none => exact hs
        | some t =>
            by_cases hw : s.isWorking = true ∧ t ≠ 0
            · have ht := hlast t hl e (List.mem_cons_self e l)
              simp only [if_pos hw]
              omega
            · simp only [if_neg hw]
              exact hs
      · intro t ht e' he'
        simp only [scanStep, Option.some.injEq] at ht
        rw [← ht]
        exact hsort'.1 e' he'

/-- **C9.** `calculateWorkDetails` never returns status `error`: the events
are sorted ascending by timestamp before the scan, so the accumulated
`totalMillis` is non-negative and the `totalMillis < 0` branch is
unreachable; every returned status is `no_entry`, `incomplete` or
`complete`. -/
theorem calculateWorkDetails_never_error (evs : List StoredClockEvent) :
    (calculateWorkDetails evs).status ≠ WorkStatus.error ∧
    ((calculateWorkDetails evs).status = WorkStatus.no_entry ∨
     (calculateWorkDetails evs).status = WorkStatus.incomplete ∨
     (calculateWorkDetails evs).status = WorkStatus.complete) := by
  have hnn : 0 ≤ (scanEvents (sortByTimestamp evs)).totalMillis :=
    scan_totalMillis_nonneg (sortByTimestamp evs)
      { totalMillis := 0, lastTime := none, isWorking := false }
      le_rfl (fun t ht => nomatch ht) (sortByTimestamp_sorted evs)
  have hst : (calculateWorkDetails evs).status = WorkStatus.no_entry ∨
      (calculateWorkDetails evs).status = WorkStatus.incomplete ∨
      (calculateWorkDetails evs).status = WorkStatus.complete := by
    simp only [calculateWorkDetails]
    split
    · exact Or.inl rfl
    · split
      · exact Or.inr (Or.inl rfl)
      · split
        · next h => exact absurd h (not_lt.2 hnn)
        · exact Or.inr (Or.inr rfl)
  refine ⟨?_, hst⟩
  rcases hst with h | h | h <;> simp [h]

/-- The type tags of a shift's events, in order. -/
def shiftTypes (s : List StoredClockEvent) : List ClockType := s.map fun e => e.type

/-- Invariant of the `currentShift` buffer while `shiftStarted` is true:
non-empty, starts with the opening Entry, and contains no Exit (an Exit
closes the shift at once). -/
def OpenBufferOk (b : List StoredClockEvent) : Prop :=
  b ≠ [] ∧ (shiftTypes b).head? = some ClockType.Entrada ∧
    (shiftTypes b).count ClockType.Saida = 0

/-- Well-formedness of one output shift: non-empty, first event an Entry,
at most one Exit and, when present, the Exit is the last event. -/
def ShiftOk (s : List StoredClockEvent) : Prop :=
  s ≠ [] ∧ (shiftTypes s).head? = some ClockType.Entrada ∧
  (shiftTypes s).count ClockType.Saida ≤ 1 ∧
  (ClockType.Saida ∈ shiftTypes s → (shiftTypes s).getLast? = some ClockType.Saida)

/-- A shift that ends with an Exit event. -/
def EndsWithExit (s : List StoredClockEvent) : Prop :=
  (shiftTypes s).getLast? = some ClockType.Saida

lemma mem_dropLast_cons {α : Type _} {x a : α} {l : List α}
    (h : x ∈ (a :: l).dropLast) : x = a ∨ x ∈ l.dropLast := by
  cases l with
  | nil => simp at h
  | cons b l' =>
      rw [List.dropLast_cons₂] at h
      exact List.mem_cons.1 h

lemma openBufferOk_append (b : List StoredClockEvent) (e : StoredClockEvent)
    (hb : OpenBufferOk b) (he : e.type ≠ ClockType.Saida) :
    OpenBufferOk (b ++ [e]) := by
  obtain ⟨hne, hhead, hcount⟩ := hb
  refine ⟨by simp, ?_, ?_⟩
  · rw [show shiftTypes (b ++ [e]) = shiftTypes b ++ [e.type] by simp [shiftTypes]]
    cases b with
    | nil => exact absurd rfl hne
    | cons x xs => simpa [shiftTypes] using hhead
  · rw [show shiftTypes (b ++ [e]) = shiftTypes b ++ [e.type] by simp [shiftTypes]]
    rw [List.count_append, hcount]
    simp [List.count_singleton, he]

/-- The scan of `groupEventsByShifts` only produces well-formed shifts:
assuming the buffer invariant, every output shift is non-empty, begins
with an Entry, has at most one Exit which can only be last, and every
output shift except possibly the last ends with an Exit. -/
lemma groupShiftsGo_wellFormed :
    ∀ (rest buffer : List StoredClockEvent) (st : Bool),
      (st = true → OpenBufferOk buffer) →
      (st = false → buffer = []) →
      (∀ s ∈ groupShiftsGo rest buffer st, ShiftOk s) ∧
      (∀ s ∈ (groupShiftsGo rest buffer st).dropLast, EndsWithExit s)
  | [], buffer, st, hopen, hclosed => by
      by_cases hb : buffer = []
      · simp [groupShiftsGo, hb]
      · cases st with
        | false => exact absurd (hclosed rfl) hb
        | true =>
            obtain ⟨hne, hhead, hcount⟩ := hopen rfl
            rw [groupShiftsGo, if_neg hb]
            refine ⟨?_, by simp⟩
            intro s hs
            rw [List.mem_singleton] at hs
            subst hs
            refine ⟨hne, hhead, by omega, ?_⟩
            intro hmem
            exact absurd (List.count_eq_zero.1 hcount) (not_not.2 hmem)
  | e :: rest, buffer, st, hopen, hclosed => by
      by_cases h1 : e.type = ClockType.Entrada ∧ st = false
      · rw [groupShiftsGo, if_pos h1]
        refine groupShiftsGo_wellFormed rest [e] true ?_ (fun hf => nomatch hf)
        intro _
        exact ⟨by simp, by simp [shiftTypes, h1.1], by simp [shiftTypes, h1.1]⟩
      · by_cases h2 : st = true
        · obtain ⟨hne, hhead, hcount⟩ := hopen h2
          by_cases h3 : e.type = ClockType.Saida
          · rw [groupShiftsGo, if_neg h1, if_pos h2]
            simp only [if_pos h3]
            have ih := groupShiftsGo_wellFormed rest [] false
              (fun hf => nomatch hf) (fun _ => rfl)
            have hcs : EndsWithExit (buffer ++ [e]) := by
              unfold EndsWithExit
              rw [show shiftTypes (buffer ++ [e]) = shiftTypes buffer ++ [e.type] by
                    simp [shiftTypes]]
              simp [h3]
            refine ⟨?_, ?_⟩
            · intro s hs
              rcases List.mem_cons.1 hs with hs | hs
              · subst hs
                refine ⟨by simp, ?_, ?_, fun _ => hcs⟩
                · rw [show shiftTypes (buffer ++ [e]) = shiftTypes buffer ++ [e.type] by
                        simp [shiftTypes]]
                  cases buffer with
                  | nil => exact absurd rfl hne
                  | cons x xs => simpa [shiftTypes] using hhead
                · rw [show shiftTypes (buffer ++ [e]) = shiftTypes buffer ++ [e.type] by
                        simp [shiftTypes]]
                  rw [List.count_append, hcount]
                  simp [List.count_singleton, h3]
              · exact ih.1 s hs
            · intro s hs
              rcases mem_dropLast_cons hs with hs | hs
              · subst hs
                exact hcs
              · exact ih.2 s hs
          · rw [groupShiftsGo, if_neg h1, if_pos h2]
            simp only [if_neg h3]
            exact groupShiftsGo_wellFormed rest (buffer ++ [e]) true
              (fun _ => openBufferOk_append buffer e ⟨hne, hhead, hcount⟩ h3)
              (fun hf => nomatch hf)
        · rw [groupShiftsGo, if_neg h1, if_neg h2]
          exact groupShiftsGo_wellFormed rest buffer st hopen hclosed

/-- **C10.** Shift well-formedness invariant: every shift produced by
`groupEventsByShifts` is non-empty, its first event has type Entry, it
contains at most one Exit event, any Exit present is the last event of the
shift, and every output shift except possibly the last ends with an
Exit. -/
theorem groupEventsByShifts_wellFormed (events : List StoredClockEvent) :
    (∀ s ∈ groupEventsByShifts events,
      s ≠ [] ∧ (shiftTypes s).head? = some ClockType.Entrada ∧
      (shiftTypes s).count ClockType.Saida ≤ 1 ∧
      (ClockType.Saida ∈ shiftTypes s →
        (shiftTypes s).getLast? = some ClockType.Saida)) ∧
    (∀ s ∈ (groupEventsByShifts events).dropLast,
      (shiftTypes s).getLast? = some ClockType.Saida) := by
  have h := groupShiftsGo_wellFormed (sortByTimestamp events) [] false
    (fun ht => nomatch ht) (fun _ => rfl)
  exact ⟨fun s hs => h.1 s hs, fun s hs => h.2 s hs⟩

/-- Witness for C10: a complete shift followed by a trailing open shift. -/
theorem groupEventsByShifts_wellFormed_witness :
    ([mkEv 1 1 ClockType.Entrada 1000, mkEv 2 1 ClockType.Saida 2000] ∈
        groupEventsByShifts [mkEv 1 1 ClockType.Entrada 1000,
          mkEv 2 1 ClockType.Saida 2000, mkEv 3 1 ClockType.Entrada 3000]) ∧
    ([mkEv 1 1 ClockType.Entrada 1000, mkEv 2 1 ClockType.Saida 2000] ≠ [] ∧
     (shiftTypes [mkEv 1 1 ClockType.Entrada 1000,
        mkEv 2 1 ClockType.Saida 2000]).head? = some ClockType.Entrada ∧
     (shiftTypes [mkEv 1 1 ClockType.Entrada 1000,
        mkEv 2 1 ClockType.Saida 2000]).count ClockType.Saida ≤ 1 ∧
     (ClockType.Saida ∈ shiftTypes [mkEv 1 1 ClockType.Entrada 1000,
          mkEv 2 1 ClockType.Saida 2000] →
        (shiftTypes [mkEv 1 1 ClockType.Entrada 1000,
          mkEv 2 1 ClockType.Saida 2000]).getLast? = some ClockType.Saida)) ∧
    ([mkEv 1 1 ClockType.Entrada 1000, mkEv 2 1 ClockType.Saida 2000] ∈
        (groupEventsByShifts [mkEv 1 1 ClockType.Entrada 1000,
          mkEv 2 1 ClockType.Saida 2000, mkEv 3 1 ClockType.Entrada 3000]).dropLast) ∧
    (shiftTypes [mkEv 1 1 ClockType.Entrada 1000,
        mkEv 2 1 ClockType.Saida 2000]).getLast? = some ClockType.Saida :=
  ⟨by decide,
   (groupEventsByShifts_wellFormed [mkEv 1 1 ClockType.Entrada 1000,
      mkEv 2 1 ClockType.Saida 2000, mkEv 3 1 ClockType.Entrada 3000]).1
     [mkEv 1 1 ClockType.Entrada 1000, mkEv 2 1 ClockType.Saida 2000] (by decide),
   by decide,
   (groupEventsByShifts_wellFormed [mkEv 1 1 ClockType.Entrada 1000,
      mkEv 2 1 ClockType.Saida 2000, mkEv 3 1 ClockType.Entrada 3000]).2
     [mkEv 1 1 ClockType.Entrada 1000, mkEv 2 1 ClockType.Saida 2000] (by decide)⟩

/-- In every branch of `calculateWorkDetails` the returned normal and extra
milliseconds sum to the returned total (on the zero branches trivially; on
the complete branch by `min(t,N) + max(0,t-N) = t`). -/
lemma calculateWorkDetails_normal_add_extra (evs : List StoredClockEvent) :
    (calculateWorkDetails evs).normal + (calculateWorkDetails evs).extra =
      (calculateWorkDetails evs).total := by
  simp only [calculateWorkDetails]
  split
  · rfl
  · split
    · rfl
    · split
      · rfl
      · simp only [zeroDetails]
        unfold NORMAL_WORK_MILLISECONDS
        omega

/-- Sum of `total` over the `complete`-status shifts of a shift list. -/
def sumCompleteShiftTotals (shifts : List (List StoredClockEvent)) : Int :=
  ((shifts.filter fun s =>
      decide ((calculateWorkDetails s).status = WorkStatus.complete)).map
    fun s => (calculateWorkDetails s).total).sum

/-- Sum of `total` over all `complete`-status shifts of all employees of a
filtered event set. -/
def sumCompleteTotals (filteredEvents : List StoredClockEvent) : Int :=
  ((employeeGroups filteredEvents).map fun g =>
      sumCompleteShiftTotals (groupEventsByShifts g)).sum

lemma addShiftToSummary_foldl :
    ∀ (shifts : List (List StoredClockEvent)) (acc : SummaryTotals),
      (shifts.foldl addShiftToSummary acc).totalNormal +
        (shifts.foldl addShiftToSummary acc).totalExtra =
      acc.totalNormal + acc.totalExtra + sumCompleteShiftTotals shifts
  | [], acc => by simp [sumCompleteShiftTotals]
  | s :: rest, acc => by
      rw [List.foldl_cons, addShiftToSummary_foldl rest]
      have hc := calculateWorkDetails_normal_add_extra s
      by_cases h : (calculateWorkDetails s).status = WorkStatus.complete <;>
        simp [addShiftToSummary, sumCompleteShiftTotals, List.filter_cons, h] <;>
        omega

lemma periodSummary_groups_foldl :
    ∀ (groups : List (List StoredClockEvent)) (acc : SummaryTotals),
      ((groups.foldl
          (fun a empEvents => (groupEventsByShifts empEvents).foldl addShiftToSummary a)
          acc).totalNormal +
       (groups.foldl
          (fun a empEvents => (groupEventsByShifts empEvents).foldl addShiftToSummary a)
          acc).totalExtra) =
      acc.totalNormal + acc.totalExtra +
        (groups.map fun g => sumCompleteShiftTotals (groupEventsByShifts g)).sum
  | [], acc => by simp
  | g :: rest, acc => by
      rw [List.foldl_cons, periodSummary_groups_foldl rest, addShiftToSummary_foldl]
      simp only [List.map_cons, List.sum_cons]
      omega

/-- **C5.** The period summary's total normal+extra milliseconds equal the
sum of `total` across all `complete`-status shifts found within the
filtered event set, and shifts with a non-`complete` status contribute
exactly nothing to the summary fold (the fold equals the fold over the
complete shifts only). -/
theorem periodSummary_aggregation (filteredEvents : List StoredClockEvent) :
    ((periodSummaryTotals filteredEvents).totalNormal +
       (periodSummaryTotals filteredEvents).totalExtra =
     sumCompleteTotals filteredEvents) ∧
    (∀ (shifts : List (List StoredClockEvent)) (acc : SummaryTotals),
      shifts.foldl addShiftToSummary acc =
        (shifts.filter fun s =>
          decide ((calculateWorkDetails s).status = WorkStatus.complete)).foldl
          addShiftToSummary acc) := by
  constructor
  · unfold periodSummaryTotals sumCompleteTotals
    rw [periodSummary_groups_foldl]
    simp
  · intro shifts acc
    induction shifts generalizing acc with
    | nil => simp
    | cons s rest ih =>
        rw [List.foldl_cons, List.filter_cons]
        by_cases h : (calculateWorkDetails s).status = WorkStatus.complete
        · simp only [h, decide_True, if_true, List.foldl_cons]
          exact ih _
        · simp only [h, decide_False, if_false]
          rw [show addShiftToSummary acc s = acc from by simp [addShiftToSummary, h]]
          exact ih acc

end Ponto
